import Mathlib

/-!
# Verification of the `credit_model` derivative pricer

Shallow embedding of `credit_model.py`: a Black-Scholes-Merton pricer for
European calls and puts plus a cost-of-carry forward on a single equity
underlyer, together with the put-call-forward parity check performed by the
script.  Python floats are modelled by the real numbers; `scipy.stats.norm.cdf`
is modelled by the cumulative distribution function of the standard normal
density, defined below as a set integral.
-/

open Real MeasureTheory Set Filter

namespace CreditModel

/-! ## Equity data model (`credit_model.py`, classes `Equity` / `TradableEquity`)

`Equity` is an abstract Python class; `TradableEquity` is its only concrete
subclass and adds no fields, so a single structure holds the four constructor
arguments stored by `Equity.__init__`. -/

structure TradableEquity where
  market_name : String
  denominated : String
  country : String
  region : String

/-- `Equity.get_name` (line 9). -/
def TradableEquity.get_name (e : TradableEquity) : String := e.market_name

/-- `Equity.get_denominated` (line 15). -/
def TradableEquity.get_denominated (e : TradableEquity) : String := e.denominated

/-- `TradableEquity.get_spot` (line 52): returns the constant `100.0`. -/
def TradableEquity.get_spot (_ : TradableEquity) : ℝ := 100.0

/-- `Equity.__repr__` (line 21): the string `Equity: name (denominated)`. -/
def TradableEquity.repr (e : TradableEquity) : String :=
  "Equity: " ++ e.get_name ++ " (" ++ e.get_denominated ++ ")"

/-- Real-valued method dispatch on a `TradableEquity`: Python resolves
`obj.name()` by attribute lookup, and `get_spot` is the only real-valued
method the class defines; any other name raises `AttributeError`. -/
def TradableEquity.callRealMethod (e : TradableEquity) (name : String) :
    Except String ℝ :=
  if name = "get_spot" then Except.ok e.get_spot
  else Except.error
    ("AttributeError: TradableEquity object has no attribute " ++ name)

/-! ## Option data model (`credit_model.py`, class `Option`) -/

structure Option where
  underlyer : TradableEquity
  strike : ℝ
  volatility : ℝ
  interest_rate : ℝ
  time_to_expiry : ℝ
  option_type : String

/-- `Option.__init__` (line 120): stores all six parameters, no validation. -/
def Option.init (S : TradableEquity) (K sigma r T : ℝ) (option_type : String) :
    Option :=
  ⟨S, K, sigma, r, T, option_type⟩

/-- `Option.get_underlyer` (line 63). -/
def Option.get_underlyer (o : Option) : TradableEquity := o.underlyer

/-- `Option.get_strike` (line 76). -/
def Option.get_strike (o : Option) : ℝ := o.strike

/-- `Option.get_volatility` (line 82). -/
def Option.get_volatility (o : Option) : ℝ := o.volatility

/-- `Option.get_interest_rate` (line 88). -/
def Option.get_interest_rate (o : Option) : ℝ := o.interest_rate

/-- `Option.get_time_to_expiry` (line 94). -/
def Option.get_time_to_expiry (o : Option) : ℝ := o.time_to_expiry

/-- `Option.get_option_type` (line 100). -/
def Option.get_option_type (o : Option) : String := o.option_type

/-- `Option.get_underlyer_spot` (line 69): the body is
`underlyer = self.get_underlyer(); return underlyer.spot()`, a dynamic call of
the method named `spot` on the underlyer. -/
def Option.get_underlyer_spot (o : Option) : Except String ℝ :=
  (o.get_underlyer).callRealMethod "spot"

/-- `CallOption.__init__` (line 144). -/
def CallOption.init (S : TradableEquity) (K sigma r T : ℝ) : Option :=
  Option.init S K sigma r T "call"

/-- `PutOption.__init__` (line 165). -/
def PutOption.init (S : TradableEquity) (K sigma r T : ℝ) : Option :=
  Option.init S K sigma r T "put"

/-- `Forward.__init__` (line 186): passes volatility `0` to `Option.__init__`. -/
def Forward.init (S : TradableEquity) (K r T : ℝ) : Option :=
  Option.init S K 0 r T "forward"

/-! ## The standard normal distribution (`scipy.stats.norm`) -/

/-- The standard normal probability density, the integrand of
`scipy.stats.norm.cdf`. -/
noncomputable def stdNormalPDF (x : ℝ) : ℝ :=
  (Real.sqrt (2 * Real.pi))⁻¹ * Real.exp (-(x ^ 2) / 2)

/-- `scipy.stats.norm.cdf`: the standard normal cumulative distribution
function `N`. -/
noncomputable def stdNormalCDF (x : ℝ) : ℝ :=
  ∫ t in Iic x, stdNormalPDF t

/-! ## Pricing formulas

`CallOption.price` and `PutOption.price` (lines 147 and 168) compute the same
local variables `sqrt_t`, `d1`, `d2` from the same expressions; they are shared
here as `d1calc` / `d2calc`. -/

/-- `d1 = np.log(S * np.exp(r * t) / K) / (sigma * sqrt_t) + .5 * sigma * sqrt_t`
with `sqrt_t = np.sqrt(t)` (lines 154-155 and 175-176). -/
noncomputable def d1calc (S K sigma r t : ℝ) : ℝ :=
  Real.log (S * Real.exp (r * t) / K) / (sigma * Real.sqrt t)
    + 0.5 * sigma * Real.sqrt t

/-- `d2 = d1 - sigma * sqrt_t` (lines 156 and 177). -/
noncomputable def d2calc (S K sigma r t : ℝ) : ℝ :=
  d1calc S K sigma r t - sigma * Real.sqrt t

/-- Body of `CallOption.price` (line 159):
`S * N(d1) - K * np.exp(-r * t) * N(d2)`. -/
noncomputable def call_price (S K sigma r t : ℝ) : ℝ :=
  S * stdNormalCDF (d1calc S K sigma r t)
    - K * Real.exp (-r * t) * stdNormalCDF (d2calc S K sigma r t)

/-- Body of `PutOption.price` (line 180):
`-S * N(-d1) + K * np.exp(-r * t) * N(-d2)`. -/
noncomputable def put_price (S K sigma r t : ℝ) : ℝ :=
  -S * stdNormalCDF (-d1calc S K sigma r t)
    + K * Real.exp (-r * t) * stdNormalCDF (-d2calc S K sigma r t)

/-- Body of `Forward.price` (line 195): `S - K * np.exp(-r * t)`. -/
noncomputable def forward_price (S K r t : ℝ) : ℝ :=
  S - K * Real.exp (-r * t)

/-- `CallOption.price` (line 147): reads the spot and the stored fields through
the getters, then evaluates the Black-Scholes call formula. -/
noncomputable def CallOption.price (o : Option) : ℝ :=
  call_price o.get_underlyer.get_spot o.get_strike o.get_volatility
    o.get_interest_rate o.get_time_to_expiry

/-- `PutOption.price` (line 168). -/
noncomputable def PutOption.price (o : Option) : ℝ :=
  put_price o.get_underlyer.get_spot o.get_strike o.get_volatility
    o.get_interest_rate o.get_time_to_expiry

/-- `Forward.price` (line 189). -/
noncomputable def Forward.price (o : Option) : ℝ :=
  forward_price o.get_underlyer.get_spot o.get_strike o.get_interest_rate
    o.get_time_to_expiry

/-! ## The orchestration script (lines 198-212) -/

namespace Script

/-- `s1 = TradableEquity(".SPX", "USD", "US", "North America")` (line 198). -/
def s1 : TradableEquity := ⟨".SPX", "USD", "US", "North America"⟩

/-- `K = 100` (line 199). -/
noncomputable def K : ℝ := 100

/-- `sigma = .2` (line 200). -/
noncomputable def sigma : ℝ := 0.2

/-- `r = .1` (line 201). -/
noncomputable def r : ℝ := 0.1

/-- `T = 1` (line 202). -/
noncomputable def T : ℝ := 1

/-- `c = CallOption(s1, K, sigma, r, T)` (line 204). -/
noncomputable def c : Option := CallOption.init s1 K sigma r T

/-- `p = PutOption(s1, K, sigma, r, T)` (line 205). -/
noncomputable def p : Option := PutOption.init s1 K sigma r T

/-- `f = Forward(s1, K, r, T)` (line 206). -/
noncomputable def f : Option := Forward.init s1 K r T

end Script

/-! ## Basic facts about the standard normal density -/

lemma stdNormalPDF_pos (x : ℝ) : 0 < stdNormalPDF x := by
  have h2π : (0 : ℝ) < 2 * Real.pi := by positivity
  exact mul_pos (inv_pos.mpr (Real.sqrt_pos.mpr h2π)) (Real.exp_pos _)

lemma stdNormalPDF_nonneg (x : ℝ) : 0 ≤ stdNormalPDF x :=
  (stdNormalPDF_pos x).le

lemma stdNormalPDF_even (x : ℝ) : stdNormalPDF (-x) = stdNormalPDF x := by
  simp [stdNormalPDF, neg_sq]

lemma continuous_stdNormalPDF : Continuous stdNormalPDF := by
  unfold stdNormalPDF
  exact continuous_const.mul (((continuous_pow 2).neg.div_const 2).rexp)

lemma integrable_stdNormalPDF : Integrable stdNormalPDF := by
  have h : Integrable fun x : ℝ => Real.exp (-(1 / 2 : ℝ) * x ^ 2) :=
    integrable_exp_neg_mul_sq (by norm_num)
  have h2 : (fun x : ℝ => Real.exp (-(x ^ 2) / 2))
      = fun x : ℝ => Real.exp (-(1 / 2 : ℝ) * x ^ 2) := by
    funext x; ring_nf
  rw [← h2] at h
  unfold stdNormalPDF
  exact h.const_mul _

lemma integral_stdNormalPDF : ∫ x, stdNormalPDF x = 1 := by
  have h2 : (fun x : ℝ => Real.exp (-(x ^ 2) / 2))
      = fun x : ℝ => Real.exp (-(1 / 2 : ℝ) * x ^ 2) := by
    funext x; ring_nf
  have hg : ∫ x : ℝ, Real.exp (-(1 / 2 : ℝ) * x ^ 2) = Real.sqrt (2 * Real.pi) := by
    rw [integral_gaussian]
    norm_num
    ring
  have h2π : (0 : ℝ) < 2 * Real.pi := by positivity
  calc ∫ x, stdNormalPDF x
      = (Real.sqrt (2 * Real.pi))⁻¹ * ∫ x : ℝ, Real.exp (-(x ^ 2) / 2) := by
        unfold stdNormalPDF; rw [integral_mul_left]
    _ = (Real.sqrt (2 * Real.pi))⁻¹ * Real.sqrt (2 * Real.pi) := by rw [h2, hg]
    _ = 1 := inv_mul_cancel₀ (ne_of_gt (Real.sqrt_pos.mpr h2π))

/-! ## Facts about the standard normal CDF -/

lemma stdNormalCDF_nonneg (x : ℝ) : 0 ≤ stdNormalCDF x :=
  setIntegral_nonneg measurableSet_Iic fun t _ => stdNormalPDF_nonneg t

lemma stdNormalCDF_le_one (x : ℝ) : stdNormalCDF x ≤ 1 := by
  rw [← integral_stdNormalPDF]
  exact setIntegral_le_integral integrable_stdNormalPDF
    (Eventually.of_forall stdNormalPDF_nonneg)

lemma stdNormalCDF_mono : Monotone stdNormalCDF := by
  intro x y hxy
  exact setIntegral_mono_set integrable_stdNormalPDF.integrableOn
    (Eventually.of_forall stdNormalPDF_nonneg)
    (HasSubset.Subset.eventuallyLE (Iic_subset_Iic.mpr hxy))

/-- `N x + N (-x) = 1`: the symmetry of the standard normal distribution. -/
lemma stdNormalCDF_add_neg (x : ℝ) : stdNormalCDF x + stdNormalCDF (-x) = 1 := by
  have hleft : stdNormalCDF (-x) = ∫ t in Ioi x, stdNormalPDF t := by
    have h := integral_comp_neg_Ioi x stdNormalPDF
    simp only [stdNormalPDF_even] at h
    exact h.symm
  rw [stdNormalCDF, hleft, ← integral_stdNormalPDF]
  exact intervalIntegral.integral_Iic_add_Ioi integrable_stdNormalPDF.integrableOn
    integrable_stdNormalPDF.integrableOn

lemma stdNormalCDF_zero : stdNormalCDF 0 = 1 / 2 := by
  have h := stdNormalCDF_add_neg 0
  rw [neg_zero] at h
  linarith

/-- Fundamental theorem of calculus for the standard normal CDF. -/
lemma hasDerivAt_stdNormalCDF (x : ℝ) :
    HasDerivAt stdNormalCDF (stdNormalPDF x) x := by
  have key : ∀ y : ℝ,
      stdNormalCDF y = stdNormalCDF 0 + ∫ t in (0 : ℝ)..y, stdNormalPDF t := by
    intro y
    have h := intervalIntegral.integral_Iic_sub_Iic
      (μ := volume) (f := stdNormalPDF) (a := (0 : ℝ)) (b := y)
      integrable_stdNormalPDF.integrableOn integrable_stdNormalPDF.integrableOn
    rw [stdNormalCDF, stdNormalCDF]
    linarith
  have hint : HasDerivAt
      (fun u => stdNormalCDF 0 + ∫ t in (0 : ℝ)..u, stdNormalPDF t)
      (stdNormalPDF x) x :=
    ((continuous_stdNormalPDF.integral_hasStrictDerivAt 0 x).hasDerivAt).const_add _
  exact hint.congr_of_eventuallyEq (Eventually.of_forall fun y => key y)

/-! ## Put-call-forward parity at the formula level -/

/-- `call - put = S - K * exp(-r*t)` holds for every parameter choice, since
the call and the put evaluate the same `d1`, `d2`. -/
lemma call_sub_put (S K sigma r t : ℝ) :
    call_price S K sigma r t - put_price S K sigma r t
      = S - K * Real.exp (-r * t) := by
  have h1 := stdNormalCDF_add_neg (d1calc S K sigma r t)
  have h2 := stdNormalCDF_add_neg (d2calc S K sigma r t)
  unfold call_price put_price
  linear_combination S * h1 - K * Real.exp (-r * t) * h2

/-! ## The Black-Scholes density identity and derivatives -/

/-- The classical identity `S * φ(d1) = K * exp(-r*t) * φ(d2)` behind the
delta and vega formulas. -/
lemma spot_mul_pdf_d1 (S K sigma r t : ℝ) (hS : 0 < S) (hK : 0 < K)
    (hσ : sigma ≠ 0) (ht : 0 < t) :
    S * stdNormalPDF (d1calc S K sigma r t)
      = K * Real.exp (-r * t) * stdNormalPDF (d2calc S K sigma r t) := by
  have hsq : 0 < Real.sqrt t := Real.sqrt_pos.mpr ht
  have hB : sigma * Real.sqrt t ≠ 0 := mul_ne_zero hσ (ne_of_gt hsq)
  have hpos : (0 : ℝ) < S * Real.exp (r * t) / K := by positivity
  have hdiff : d1calc S K sigma r t ^ 2 - d2calc S K sigma r t ^ 2
      = 2 * Real.log (S * Real.exp (r * t) / K) := by
    unfold d2calc d1calc
    field_simp
    ring
  have hpdf : stdNormalPDF (d1calc S K sigma r t)
      = stdNormalPDF (d2calc S K sigma r t)
        * Real.exp (-Real.log (S * Real.exp (r * t) / K)) := by
    unfold stdNormalPDF
    rw [mul_assoc, ← Real.exp_add]
    have harg : -(d1calc S K sigma r t ^ 2) / 2
        = -(d2calc S K sigma r t ^ 2) / 2
          + -Real.log (S * Real.exp (r * t) / K) := by linarith
    rw [harg]
  have hexp : Real.exp (-r * t) = (Real.exp (r * t))⁻¹ := by
    rw [neg_mul, Real.exp_neg]
  have hexpL : Real.exp (-Real.log (S * Real.exp (r * t) / K))
      = K * Real.exp (-r * t) / S := by
    rw [Real.exp_neg, Real.exp_log hpos, hexp]
    field_simp
    exact Or.inl (mul_comm _ _)
  rw [hpdf, hexpL]
  field_simp
  ring

/-- Derivative of `d1` with respect to the spot. -/
lemma hasDerivAt_d1_spot (K sigma r t S : ℝ) (hK : 0 < K) (hσ : sigma ≠ 0)
    (ht : 0 < t) (hS : 0 < S) :
    HasDerivAt (fun s => d1calc s K sigma r t)
      (1 / (S * (sigma * Real.sqrt t))) S := by
  have hsq : 0 < Real.sqrt t := Real.sqrt_pos.mpr ht
  have hinner : HasDerivAt (fun s : ℝ => s * Real.exp (r * t) / K)
      (Real.exp (r * t) / K) S := by
    simpa using ((hasDerivAt_id S).mul_const (Real.exp (r * t))).div_const K
  have hne : S * Real.exp (r * t) / K ≠ 0 := by positivity
  have hlog : HasDerivAt (fun s : ℝ => Real.log (s * Real.exp (r * t) / K))
      ((S * Real.exp (r * t) / K)⁻¹ * (Real.exp (r * t) / K)) S :=
    (Real.hasDerivAt_log hne).comp S hinner
  have hd1 : HasDerivAt (fun s => d1calc s K sigma r t)
      (((S * Real.exp (r * t) / K)⁻¹ * (Real.exp (r * t) / K))
        / (sigma * Real.sqrt t)) S := by
    unfold d1calc
    exact (hlog.div_const _).add_const _
  convert hd1 using 1
  rw [inv_div]
  field_simp
  ring

/-- Derivative of the call price with respect to the spot: the delta `N(d1)`. -/
lemma hasDerivAt_call_spot (K sigma r t S : ℝ) (hK : 0 < K) (hσ : 0 < sigma)
    (ht : 0 < t) (hS : 0 < S) :
    HasDerivAt (fun s => call_price s K sigma r t)
      (stdNormalCDF (d1calc S K sigma r t)) S := by
  have hd1 := hasDerivAt_d1_spot K sigma r t S hK (ne_of_gt hσ) ht hS
  have hd2 : HasDerivAt (fun s => d2calc s K sigma r t)
      (1 / (S * (sigma * Real.sqrt t))) S := by
    unfold d2calc
    exact hd1.sub_const _
  have hN1 : HasDerivAt (fun s => stdNormalCDF (d1calc s K sigma r t))
      (stdNormalPDF (d1calc S K sigma r t) * (1 / (S * (sigma * Real.sqrt t)))) S :=
    (hasDerivAt_stdNormalCDF _).comp S hd1
  have hN2 : HasDerivAt (fun s => stdNormalCDF (d2calc s K sigma r t))
      (stdNormalPDF (d2calc S K sigma r t) * (1 / (S * (sigma * Real.sqrt t)))) S :=
    (hasDerivAt_stdNormalCDF _).comp S hd2
  have hmess : HasDerivAt (fun s : ℝ => s * stdNormalCDF (d1calc s K sigma r t)
      - K * Real.exp (-r * t) * stdNormalCDF (d2calc s K sigma r t))
      (1 * stdNormalCDF (d1calc S K sigma r t)
        + S * (stdNormalPDF (d1calc S K sigma r t) * (1 / (S * (sigma * Real.sqrt t))))
        - K * Real.exp (-r * t)
          * (stdNormalPDF (d2calc S K sigma r t) * (1 / (S * (sigma * Real.sqrt t))))) S :=
    ((hasDerivAt_id S).mul hN1).sub (hN2.const_mul (K * Real.exp (-r * t)))
  have hident := spot_mul_pdf_d1 S K sigma r t hS hK (ne_of_gt hσ) ht
  simp only [call_price]
  convert hmess using 1
  linear_combination (-(1 / (S * (sigma * Real.sqrt t)))) * hident

/-- Derivative of the put price with respect to the spot: `N(d1) - 1`. -/
lemma hasDerivAt_put_spot (K sigma r t S : ℝ) (hK : 0 < K) (hσ : 0 < sigma)
    (ht : 0 < t) (hS : 0 < S) :
    HasDerivAt (fun s => put_price s K sigma r t)
      (stdNormalCDF (d1calc S K sigma r t) - 1) S := by
  have hcall := hasDerivAt_call_spot K sigma r t S hK hσ ht hS
  have hlin : HasDerivAt
      (fun s : ℝ => call_price s K sigma r t - (s - K * Real.exp (-r * t)))
      (stdNormalCDF (d1calc S K sigma r t) - 1) S := by
    simpa using hcall.sub ((hasDerivAt_id S).sub_const (K * Real.exp (-r * t)))
  refine hlin.congr_of_eventuallyEq (Eventually.of_forall fun s => ?_)
  show put_price s K sigma r t
      = call_price s K sigma r t - (s - K * Real.exp (-r * t))
  have h := call_sub_put s K sigma r t
  linarith

/-- Derivative of `d1` with respect to the volatility. -/
lemma hasDerivAt_d1_sigma (S K r t sigma : ℝ) (ht : 0 < t) (hσ : sigma ≠ 0) :
    HasDerivAt (fun v => d1calc S K v r t)
      (0.5 * Real.sqrt t
        - Real.log (S * Real.exp (r * t) / K) / (sigma ^ 2 * Real.sqrt t))
      sigma := by
  have hsq : 0 < Real.sqrt t := Real.sqrt_pos.mpr ht
  have hB : sigma * Real.sqrt t ≠ 0 := mul_ne_zero hσ (ne_of_gt hsq)
  have hquot : HasDerivAt
      (fun v : ℝ => Real.log (S * Real.exp (r * t) / K) / (v * Real.sqrt t))
      ((0 * (sigma * Real.sqrt t)
          - Real.log (S * Real.exp (r * t) / K) * (1 * Real.sqrt t))
        / (sigma * Real.sqrt t) ^ 2) sigma :=
    (hasDerivAt_const sigma _).div ((hasDerivAt_id sigma).mul_const _) hB
  have hlin : HasDerivAt (fun v : ℝ => 0.5 * v * Real.sqrt t)
      (0.5 * 1 * Real.sqrt t) sigma :=
    ((hasDerivAt_id sigma).const_mul (0.5 : ℝ)).mul_const (Real.sqrt t)
  have hd1 : HasDerivAt (fun v => d1calc S K v r t)
      ((0 * (sigma * Real.sqrt t)
          - Real.log (S * Real.exp (r * t) / K) * (1 * Real.sqrt t))
        / (sigma * Real.sqrt t) ^ 2 + 0.5 * 1 * Real.sqrt t) sigma := by
    unfold d1calc
    exact hquot.add hlin
  convert hd1 using 1
  field_simp
  ring

/-- Derivative of the call price with respect to the volatility: the vega
`S * φ(d1) * sqrt t`, which is nonnegative. -/
lemma hasDerivAt_call_sigma (S K r t sigma : ℝ) (hS : 0 < S) (hK : 0 < K)
    (ht : 0 < t) (hσ : 0 < sigma) :
    HasDerivAt (fun v => call_price S K v r t)
      (S * stdNormalPDF (d1calc S K sigma r t) * Real.sqrt t) sigma := by
  have hd1 := hasDerivAt_d1_sigma S K r t sigma ht (ne_of_gt hσ)
  have hd2 : HasDerivAt (fun v => d2calc S K v r t)
      (0.5 * Real.sqrt t
          - Real.log (S * Real.exp (r * t) / K) / (sigma ^ 2 * Real.sqrt t)
        - 1 * Real.sqrt t) sigma := by
    unfold d2calc
    exact hd1.sub ((hasDerivAt_id sigma).mul_const _)
  have hN1 : HasDerivAt (fun v => stdNormalCDF (d1calc S K v r t))
      (stdNormalPDF (d1calc S K sigma r t)
        * (0.5 * Real.sqrt t
            - Real.log (S * Real.exp (r * t) / K) / (sigma ^ 2 * Real.sqrt t)))
      sigma :=
    (hasDerivAt_stdNormalCDF _).comp sigma hd1
  have hN2 : HasDerivAt (fun v => stdNormalCDF (d2calc S K v r t))
      (stdNormalPDF (d2calc S K sigma r t)
        * (0.5 * Real.sqrt t
            - Real.log (S * Real.exp (r * t) / K) / (sigma ^ 2 * Real.sqrt t)
          - 1 * Real.sqrt t)) sigma :=
    (hasDerivAt_stdNormalCDF _).comp sigma hd2
  have hmess : HasDerivAt (fun v : ℝ => S * stdNormalCDF (d1calc S K v r t)
      - K * Real.exp (-r * t) * stdNormalCDF (d2calc S K v r t))
      (S * (stdNormalPDF (d1calc S K sigma r t)
          * (0.5 * Real.sqrt t
              - Real.log (S * Real.exp (r * t) / K) / (sigma ^ 2 * Real.sqrt t)))
        - K * Real.exp (-r * t) * (stdNormalPDF (d2calc S K sigma r t)
          * (0.5 * Real.sqrt t
              - Real.log (S * Real.exp (r * t) / K) / (sigma ^ 2 * Real.sqrt t)
            - 1 * Real.sqrt t))) sigma :=
    (hN1.const_mul S).sub (hN2.const_mul (K * Real.exp (-r * t)))
  have hident := spot_mul_pdf_d1 S K sigma r t hS hK (ne_of_gt hσ) ht
  simp only [call_price]
  convert hmess using 1
  linear_combination (Real.sqrt t
    - (0.5 * Real.sqrt t
        - Real.log (S * Real.exp (r * t) / K) / (sigma ^ 2 * Real.sqrt t)))
    * hident

/-! ## Monotonicity of the pricing formulas -/

/-- The call price is non-decreasing in the spot. -/
lemma call_price_mono_spot (K sigma r t : ℝ) (hK : 0 < K) (hσ : 0 < sigma)
    (ht : 0 < t) {S1 S2 : ℝ} (hS1 : 0 < S1) (h12 : S1 ≤ S2) :
    call_price S1 K sigma r t ≤ call_price S2 K sigma r t := by
  have hmono : MonotoneOn (fun s => call_price s K sigma r t) (Ioi (0 : ℝ)) := by
    refine monotoneOn_of_deriv_nonneg (convex_Ioi 0) ?_ ?_ ?_
    · intro S hS
      exact (hasDerivAt_call_spot K sigma r t S hK hσ ht
        hS).differentiableAt.continuousAt.continuousWithinAt
    · intro S hS
      rw [interior_Ioi] at hS
      exact (hasDerivAt_call_spot K sigma r t S hK hσ ht
        hS).differentiableAt.differentiableWithinAt
    · intro S hS
      rw [interior_Ioi] at hS
      rw [(hasDerivAt_call_spot K sigma r t S hK hσ ht hS).deriv]
      exact stdNormalCDF_nonneg _
  exact hmono hS1 (lt_of_lt_of_le hS1 h12) h12

/-- The put price is non-increasing in the spot. -/
lemma put_price_anti_spot (K sigma r t : ℝ) (hK : 0 < K) (hσ : 0 < sigma)
    (ht : 0 < t) {S1 S2 : ℝ} (hS1 : 0 < S1) (h12 : S1 ≤ S2) :
    put_price S2 K sigma r t ≤ put_price S1 K sigma r t := by
  have hanti : AntitoneOn (fun s => put_price s K sigma r t) (Ioi (0 : ℝ)) := by
    refine antitoneOn_of_deriv_nonpos (convex_Ioi 0) ?_ ?_ ?_
    · intro S hS
      exact (hasDerivAt_put_spot K sigma r t S hK hσ ht
        hS).differentiableAt.continuousAt.continuousWithinAt
    · intro S hS
      rw [interior_Ioi] at hS
      exact (hasDerivAt_put_spot K sigma r t S hK hσ ht
        hS).differentiableAt.differentiableWithinAt
    · intro S hS
      rw [interior_Ioi] at hS
      rw [(hasDerivAt_put_spot K sigma r t S hK hσ ht hS).deriv]
      have := stdNormalCDF_le_one (d1calc S K sigma r t)
      linarith
  exact hanti hS1 (lt_of_lt_of_le hS1 h12) h12

/-- The call price is non-decreasing in the volatility. -/
lemma call_price_mono_sigma (S K r t : ℝ) (hS : 0 < S) (hK : 0 < K)
    (ht : 0 < t) {sigma1 sigma2 : ℝ} (hσ1 : 0 < sigma1) (h12 : sigma1 ≤ sigma2) :
    call_price S K sigma1 r t ≤ call_price S K sigma2 r t := by
  have hmono : MonotoneOn (fun v => call_price S K v r t) (Ioi (0 : ℝ)) := by
    refine monotoneOn_of_deriv_nonneg (convex_Ioi 0) ?_ ?_ ?_
    · intro v hv
      exact (hasDerivAt_call_sigma S K r t v hS hK ht
        hv).differentiableAt.continuousAt.continuousWithinAt
    · intro v hv
      rw [interior_Ioi] at hv
      exact (hasDerivAt_call_sigma S K r t v hS hK ht
        hv).differentiableAt.differentiableWithinAt
    · intro v hv
      rw [interior_Ioi] at hv
      rw [(hasDerivAt_call_sigma S K r t v hS hK ht hv).deriv]
      have h1 : 0 ≤ stdNormalPDF (d1calc S K v r t) := stdNormalPDF_nonneg _
      have h2 : 0 ≤ Real.sqrt t := Real.sqrt_nonneg t
      positivity
  exact hmono hσ1 (lt_of_lt_of_le hσ1 h12) h12

/-- The put price is non-decreasing in the volatility (by parity, its
volatility dependence is the same as the call price). -/
lemma put_price_mono_sigma (S K r t : ℝ) (hS : 0 < S) (hK : 0 < K)
    (ht : 0 < t) {sigma1 sigma2 : ℝ} (hσ1 : 0 < sigma1) (h12 : sigma1 ≤ sigma2) :
    put_price S K sigma1 r t ≤ put_price S K sigma2 r t := by
  have hc := call_price_mono_sigma S K r t hS hK ht hσ1 h12
  have h1 := call_sub_put S K sigma1 r t
  have h2 := call_sub_put S K sigma2 r t
  linarith

/-! ## The spec-side pricing formulas (spec.md §4.3)

Stated with the spec's own local variables, to compare against the code. -/

/-- Call formula as the spec writes it: `sqrt_t = sqrt(t)`,
`d1 = ln(S * exp(r*t) / K) / (sigma * sqrt_t) + 0.5 * sigma * sqrt_t`,
`d2 = d1 - sigma * sqrt_t`, `call_price = S * N(d1) - K * exp(-r*t) * N(d2)`. -/
noncomputable def specCallPrice (S K sigma r t : ℝ) : ℝ :=
  let sqrt_t := Real.sqrt t
  let d1 := Real.log (S * Real.exp (r * t) / K) / (sigma * sqrt_t)
    + 0.5 * sigma * sqrt_t
  let d2 := d1 - sigma * sqrt_t
  S * stdNormalCDF d1 - K * Real.exp (-r * t) * stdNormalCDF d2

/-- Put formula as the spec writes it:
`put_price = -S * N(-d1) + K * exp(-r*t) * N(-d2)` with the same `d1`, `d2`. -/
noncomputable def specPutPrice (S K sigma r t : ℝ) : ℝ :=
  let sqrt_t := Real.sqrt t
  let d1 := Real.log (S * Real.exp (r * t) / K) / (sigma * sqrt_t)
    + 0.5 * sigma * sqrt_t
  let d2 := d1 - sigma * sqrt_t;
  -S * stdNormalCDF (-d1) + K * Real.exp (-r * t) * stdNormalCDF (-d2)

/-! ## The claims -/

/-- C1: a call, a put and a forward constructed on the same underlyer with the
same strike `K`, rate `r` and expiry `T > 0`, the call and the put sharing a
volatility `sigma > 0`, satisfy
`call.price() - put.price() - forward.price() = 0` exactly in the real-number
model, regardless of the volatility. -/
theorem C1_put_call_forward_parity (E : TradableEquity) (K sigma r T : ℝ)
    (hσ : 0 < sigma) (ht : 0 < T) :
    CallOption.price (CallOption.init E K sigma r T)
      - PutOption.price (PutOption.init E K sigma r T)
      - Forward.price (Forward.init E K r T) = 0 := by
  have h := call_sub_put E.get_spot K sigma r T
  simp only [CallOption.price, PutOption.price, Forward.price, CallOption.init,
    PutOption.init, Forward.init, Option.init, Option.get_underlyer,
    Option.get_strike, Option.get_volatility, Option.get_interest_rate,
    Option.get_time_to_expiry, forward_price]
  linarith

/-- Witness for C1 at the script underlyer, `K = 100`, `sigma = 1`,
`r = 1/10`, `T = 1`. -/
theorem C1_put_call_forward_parity_witness :
    ((0 : ℝ) < 1 ∧ (0 : ℝ) < 1)
    ∧ CallOption.price (CallOption.init Script.s1 100 1 (1 / 10) 1)
        - PutOption.price (PutOption.init Script.s1 100 1 (1 / 10) 1)
        - Forward.price (Forward.init Script.s1 100 (1 / 10) 1) = 0 :=
  ⟨⟨by norm_num, by norm_num⟩,
    C1_put_call_forward_parity Script.s1 100 1 (1 / 10) 1 (by norm_num)
      (by norm_num)⟩

/-- C2: for every call option with positive volatility, expiry, strike and
spot, `price()` returns exactly the spec formula
`S * N(d1) - K * exp(-r*t) * N(d2)` with
`d1 = ln(S * exp(r*t) / K) / (sigma * sqrt_t) + 0.5 * sigma * sqrt_t` and
`d2 = d1 - sigma * sqrt_t` (the carry folded into the forward `S * exp(r*t)`);
the proof is by `rfl`, so the code computes this exact algebraic form, not a
rearrangement. -/
theorem C2_call_price_formula (E : TradableEquity) (K sigma r T : ℝ)
    (hσ : 0 < sigma) (ht : 0 < T) (hK : 0 < K) (hS : 0 < E.get_spot) :
    CallOption.price (CallOption.init E K sigma r T)
      = specCallPrice E.get_spot K sigma r T := rfl

/-- Witness for C2 at the script underlyer, `K = 100`, `sigma = 1`,
`r = 1/10`, `T = 1`. -/
theorem C2_call_price_formula_witness :
    ((0 : ℝ) < 1 ∧ (0 : ℝ) < 100 ∧ (0 : ℝ) < Script.s1.get_spot)
    ∧ CallOption.price (CallOption.init Script.s1 100 1 (1 / 10) 1)
        = specCallPrice Script.s1.get_spot 100 1 (1 / 10) 1 :=
  ⟨⟨by norm_num, by norm_num, by norm_num [TradableEquity.get_spot]⟩,
    C2_call_price_formula Script.s1 100 1 (1 / 10) 1 (by norm_num) (by norm_num)
      (by norm_num) (by norm_num [TradableEquity.get_spot])⟩

/-- C3: for every put option with positive volatility, expiry, strike and
spot, `price()` returns exactly the spec formula
`-S * N(-d1) + K * exp(-r*t) * N(-d2)` with the same `d1`, `d2` as the call. -/
theorem C3_put_price_formula (E : TradableEquity) (K sigma r T : ℝ)
    (hσ : 0 < sigma) (ht : 0 < T) (hK : 0 < K) (hS : 0 < E.get_spot) :
    PutOption.price (PutOption.init E K sigma r T)
      = specPutPrice E.get_spot K sigma r T := rfl

/-- Witness for C3 at the script underlyer, `K = 100`, `sigma = 1`,
`r = 1/10`, `T = 1`. -/
theorem C3_put_price_formula_witness :
    ((0 : ℝ) < 1 ∧ (0 : ℝ) < 100 ∧ (0 : ℝ) < Script.s1.get_spot)
    ∧ PutOption.price (PutOption.init Script.s1 100 1 (1 / 10) 1)
        = specPutPrice Script.s1.get_spot 100 1 (1 / 10) 1 :=
  ⟨⟨by norm_num, by norm_num, by norm_num [TradableEquity.get_spot]⟩,
    C3_put_price_formula Script.s1 100 1 (1 / 10) 1 (by norm_num) (by norm_num)
      (by norm_num) (by norm_num [TradableEquity.get_spot])⟩

/-- C4: every forward prices to exactly `S - K * exp(-r*t)`; at `t = 0` the
forward price is exactly `S - K`; and the forward is constructed with
volatility `0`. -/
theorem C4_forward_price (E : TradableEquity) (K r T : ℝ) :
    Forward.price (Forward.init E K r T) = E.get_spot - K * Real.exp (-r * T)
    ∧ Forward.price (Forward.init E K r 0) = E.get_spot - K
    ∧ (Forward.init E K r T).get_volatility = 0 := by
  refine ⟨rfl, ?_, rfl⟩
  show forward_price E.get_spot K r 0 = E.get_spot - K
  simp [forward_price]

/-- C5: the code validates nothing: a call constructed with volatility `0`
stores the degenerate field and `price()` still produces a number (evaluated
under the real-field convention `x / 0 = 0`; the Python code likewise returns
a float built from IEEE `inf`/`nan` instead of raising), and a call
constructed with expiry `0` stores `0` unrejected. -/
theorem C5_no_degeneracy_error :
    (CallOption.init Script.s1 100 0 (1 / 10) 1).get_volatility = 0
    ∧ (CallOption.init Script.s1 100 (1 / 5) (1 / 10) 0).get_time_to_expiry = 0
    ∧ CallOption.price (CallOption.init Script.s1 100 0 (1 / 10) 1)
        = 50 - 50 * Real.exp (-(1 / 10)) := by
  refine ⟨rfl, rfl, ?_⟩
  have hspot : Script.s1.get_spot = 100 := by
    norm_num [TradableEquity.get_spot]
  have hd1 : d1calc 100 100 0 (1 / 10) 1 = 0 := by
    unfold d1calc
    norm_num
  have hd2 : d2calc 100 100 0 (1 / 10) 1 = 0 := by
    unfold d2calc
    rw [hd1]
    norm_num
  show call_price Script.s1.get_spot 100 0 (1 / 10) 1
      = 50 - 50 * Real.exp (-(1 / 10))
  rw [hspot]
  unfold call_price
  rw [hd1, hd2, stdNormalCDF_zero]
  norm_num
  ring

/-- C6: `get_underlyer_spot()` does not return the underlyer spot: its body
calls the nonexistent method `spot` on the `Equity`, so it raises
`AttributeError` for every option, even though `get_spot` on the underlyer
itself returns `100.0`. -/
theorem C6_get_underlyer_spot_raises (o : Option) :
    o.get_underlyer_spot
      = Except.error
          ("AttributeError: TradableEquity object has no attribute " ++ "spot")
    ∧ o.get_underlyer.get_spot = 100 := by
  refine ⟨rfl, ?_⟩
  norm_num [TradableEquity.get_spot]

/-- C7: `get_spot` on a `TradableEquity` returns the constant `100.0`
whatever strings it was constructed with; in particular the spot is defined,
non-negative, and identical across all instances and operation histories. -/
theorem C7_spot_constant (e e2 : TradableEquity) :
    e.get_spot = 100 ∧ 0 ≤ e.get_spot ∧ e.get_spot = e2.get_spot := by
  norm_num [TradableEquity.get_spot]

/-- C8: `price()` is pure and deterministic: it is a function of the accessor
values alone, so any two option records whose getters agree (in particular
the same unmutated instance read twice) price identically for call, put and
forward, and the embedding of each `price` body is a function that touches no
state. -/
theorem C8_price_pure (o o2 : Option)
    (h1 : o.get_underlyer.get_spot = o2.get_underlyer.get_spot)
    (h2 : o.get_strike = o2.get_strike)
    (h3 : o.get_volatility = o2.get_volatility)
    (h4 : o.get_interest_rate = o2.get_interest_rate)
    (h5 : o.get_time_to_expiry = o2.get_time_to_expiry) :
    CallOption.price o = CallOption.price o2
    ∧ PutOption.price o = PutOption.price o2
    ∧ Forward.price o = Forward.price o2 := by
  unfold CallOption.price PutOption.price Forward.price
  rw [h1, h2, h3, h4, h5]
  exact ⟨rfl, rfl, rfl⟩

/-- Witness for C8: the script call option, read twice. -/
theorem C8_price_pure_witness :
    CallOption.price Script.c = CallOption.price Script.c
    ∧ PutOption.price Script.c = PutOption.price Script.c
    ∧ Forward.price Script.c = Forward.price Script.c :=
  C8_price_pure Script.c Script.c rfl rfl rfl rfl rfl

/-- C9: with strike, rate and expiry fixed (`K > 0`, `t > 0`, `sigma > 0`),
the call price is non-decreasing in the spot and in the volatility, and the
put price is non-increasing in the spot and non-decreasing in the volatility;
the last two conjuncts state the volatility monotonicity on actual
`CallOption` / `PutOption` instances. -/
theorem C9_monotonicity (E : TradableEquity) (K r t S1 S2 sigma1 sigma2 : ℝ)
    (hK : 0 < K) (ht : 0 < t) (hσ1 : 0 < sigma1) (hσ12 : sigma1 ≤ sigma2)
    (hS1 : 0 < S1) (hS12 : S1 ≤ S2) :
    call_price S1 K sigma1 r t ≤ call_price S2 K sigma1 r t
    ∧ put_price S2 K sigma1 r t ≤ put_price S1 K sigma1 r t
    ∧ call_price S1 K sigma1 r t ≤ call_price S1 K sigma2 r t
    ∧ put_price S1 K sigma1 r t ≤ put_price S1 K sigma2 r t
    ∧ CallOption.price (CallOption.init E K sigma1 r t)
        ≤ CallOption.price (CallOption.init E K sigma2 r t)
    ∧ PutOption.price (PutOption.init E K sigma1 r t)
        ≤ PutOption.price (PutOption.init E K sigma2 r t) := by
  have hspot : (0 : ℝ) < E.get_spot := by norm_num [TradableEquity.get_spot]
  refine ⟨call_price_mono_spot K sigma1 r t hK hσ1 ht hS1 hS12,
    put_price_anti_spot K sigma1 r t hK hσ1 ht hS1 hS12,
    call_price_mono_sigma S1 K r t hS1 hK ht hσ1 hσ12,
    put_price_mono_sigma S1 K r t hS1 hK ht hσ1 hσ12, ?_, ?_⟩
  · show call_price E.get_spot K sigma1 r t ≤ call_price E.get_spot K sigma2 r t
    exact call_price_mono_sigma E.get_spot K r t hspot hK ht hσ1 hσ12
  · show put_price E.get_spot K sigma1 r t ≤ put_price E.get_spot K sigma2 r t
    exact put_price_mono_sigma E.get_spot K r t hspot hK ht hσ1 hσ12

/-- Witness for C9 at `K = 1`, `r = 0`, `t = 1`, spots `1 ≤ 2`,
volatilities `1 ≤ 2`. -/
theorem C9_monotonicity_witness :
    ((0 : ℝ) < 1 ∧ (1 : ℝ) ≤ 2)
    ∧ (call_price 1 1 1 0 1 ≤ call_price 2 1 1 0 1
      ∧ put_price 2 1 1 0 1 ≤ put_price 1 1 1 0 1
      ∧ call_price 1 1 1 0 1 ≤ call_price 1 1 2 0 1
      ∧ put_price 1 1 1 0 1 ≤ put_price 1 1 2 0 1
      ∧ CallOption.price (CallOption.init Script.s1 1 1 0 1)
          ≤ CallOption.price (CallOption.init Script.s1 1 2 0 1)
      ∧ PutOption.price (PutOption.init Script.s1 1 1 0 1)
          ≤ PutOption.price (PutOption.init Script.s1 1 2 0 1)) :=
  ⟨⟨by norm_num, by norm_num⟩,
    C9_monotonicity Script.s1 1 0 1 1 2 1 2 (by norm_num) (by norm_num)
      (by norm_num) (by norm_num) (by norm_num) (by norm_num)⟩

/-- C10: the `country` and `region` constructor arguments are unobservable:
two equities agreeing on name and denomination but arbitrary in country and
region are indistinguishable through `get_name`, `get_denominated`,
`get_spot`, the string representation, and the prices of any call, put or
forward written on them. -/
theorem C10_country_region_unobservable (e1 e2 : TradableEquity)
    (hn : e1.market_name = e2.market_name)
    (hd : e1.denominated = e2.denominated) :
    e1.get_name = e2.get_name
    ∧ e1.get_denominated = e2.get_denominated
    ∧ e1.get_spot = e2.get_spot
    ∧ e1.repr = e2.repr
    ∧ ∀ K sigma r T : ℝ,
        CallOption.price (CallOption.init e1 K sigma r T)
          = CallOption.price (CallOption.init e2 K sigma r T)
        ∧ PutOption.price (PutOption.init e1 K sigma r T)
          = PutOption.price (PutOption.init e2 K sigma r T)
        ∧ Forward.price (Forward.init e1 K r T)
          = Forward.price (Forward.init e2 K r T) := by
  refine ⟨hn, hd, rfl, ?_, ?_⟩
  · unfold TradableEquity.repr TradableEquity.get_name
      TradableEquity.get_denominated
    rw [hn, hd]
  · intro K sigma r T
    exact ⟨rfl, rfl, rfl⟩

/-- Witness for C10: two equities differing only in country and region. -/
theorem C10_country_region_unobservable_witness :
    (TradableEquity.mk ".SPX" "USD" "US" "North America").repr
        = (TradableEquity.mk ".SPX" "USD" "FR" "Europe").repr
    ∧ CallOption.price
        (CallOption.init (TradableEquity.mk ".SPX" "USD" "US" "North America")
          100 1 1 1)
      = CallOption.price
        (CallOption.init (TradableEquity.mk ".SPX" "USD" "FR" "Europe")
          100 1 1 1) :=
  ⟨(C10_country_region_unobservable
      (TradableEquity.mk ".SPX" "USD" "US" "North America")
      (TradableEquity.mk ".SPX" "USD" "FR" "Europe") rfl rfl).2.2.2.1,
    ((C10_country_region_unobservable
      (TradableEquity.mk ".SPX" "USD" "US" "North America")
      (TradableEquity.mk ".SPX" "USD" "FR" "Europe") rfl rfl).2.2.2.2
      100 1 1 1).1⟩

end CreditModel
